import Mathlib

/-!
# Local node query facade (`node/local/node.go`)

A shallow embedding of the height-resolution, pagination and search-ordering
logic of the local node, followed by the properties proved about it.

Conventions of the embedding.

* Go `int` and `int64` are 64-bit two's-complement integers.  They are modelled
  as `Int`; every arithmetic operation of the source is followed by `wrapInt`,
  so overflow behaves as in Go.  Comparisons need no wrapping.
* A Go function returning `(T, error)` with a zero `T` on the error path is an
  `Except Error T`.  `validatePage` returns the non-zero value `1` next to its
  error, so it returns the pair itself.
* A run-time panic is a value of `Panic`.
* Functions of other packages (`sort.Slice`, `hex.DecodeString`,
  `bftquery.New`, `Tx.Hash`, `makeTxResult`, `types.NewTx`) are fields of `Lib`.
* Every method of `Node` also returns the list of calls it made to its
  collaborators, in call order.
-/

namespace Juno

/-! ## Machine integers -/

/-- Two's-complement wrap-around of a mathematical integer to 64 bits. -/
def wrapInt (x : Int) : Int :=
  (x + 9223372036854775808) % 18446744073709551616 - 9223372036854775808

/-- Values representable in a Go `int` (64 bits). -/
def InRange (x : Int) : Prop :=
  -9223372036854775808 ≤ x ∧ x < 9223372036854775808

instance (x : Int) : Decidable (InRange x) := by
  unfold InRange; exact inferInstance

/-- Go `a + b`. -/
def goAdd (a b : Int) : Int := wrapInt (a + b)

/-- Go `a - b`. -/
def goSub (a b : Int) : Int := wrapInt (a - b)

/-- Go `a * b`. -/
def goMul (a b : Int) : Int := wrapInt (a * b)

/-- Go `a / b` for a non-zero divisor: the quotient truncated toward zero. -/
def goDiv (a b : Int) : Int := wrapInt (Int.tdiv a b)

/-! ## Data -/

abbrev Bytes := List UInt8

/-- Stand-in for `abci.ResponseDeliverTx`, which the facade only forwards. -/
structure ResponseDeliverTx where
  code : Nat
  data : Bytes
deriving DecidableEq, Repr

/-- The search hit `abci.TxResult` produced by the transaction indexer. -/
structure TxResult where
  height : Int
  index : Nat
  tx : Bytes
  result : ResponseDeliverTx
deriving DecidableEq, Repr

/-- Stand-in for `bfttypes.TxProof`; only its zero value is used. -/
structure TxProof where
  rootHash : Bytes := []
deriving DecidableEq, Repr

/-- The value `bftcoretypes.ResultTx`. -/
structure ResultTx where
  hash : Bytes
  height : Int
  index : Nat
  txResult : ResponseDeliverTx
  tx : Bytes
  proof : TxProof
deriving DecidableEq, Repr

/-- The value `bftcoretypes.ResultTxSearch`. -/
structure ResultTxSearch where
  txs : List ResultTx
  totalCount : Int
deriving DecidableEq, Repr

/-- Stand-in for `bfttypes.BlockID`; the zero value has an empty hash. -/
structure BlockID where
  hash : Bytes := []
deriving DecidableEq, Repr

structure Block where
  height : Int
  txs : List Bytes
deriving DecidableEq, Repr

structure BlockMeta where
  blockID : BlockID
deriving DecidableEq, Repr

/-- The value `bftcoretypes.ResultBlock`; `block` is a pointer and may be nil. -/
structure ResultBlock where
  blockID : BlockID
  block : Option Block
deriving DecidableEq, Repr

structure Validator where
  address : Bytes
  votingPower : Int
deriving DecidableEq, Repr

structure ValidatorSet where
  validators : List Validator
deriving DecidableEq, Repr

/-- The value `bftcoretypes.ResultValidators`. -/
structure ResultValidators where
  blockHeight : Int
  validators : List Validator
  count : Int
  total : Int
deriving DecidableEq, Repr

/-- Stand-in for `bftstate.ABCIResponses`. -/
structure ABCIResponses where
  deliverTxs : List ResponseDeliverTx
  beginBlockEvents : List String
  endBlockEvents : List String
  validatorUpdates : List Validator
  consensusParamUpdates : Option Bytes
deriving DecidableEq, Repr

/-- The value `bftcoretypes.ResultBlockResults`. -/
structure ResultBlockResults where
  height : Int
  txsResults : List ResponseDeliverTx
  beginBlockEvents : List String
  endBlockEvents : List String
  validatorUpdates : List Validator
  consensusParamUpdates : Option Bytes
deriving DecidableEq, Repr

/-- A parsed search query (`bftquery.Query`). -/
structure Query where
  source : String
deriving DecidableEq, Repr

/-- Stand-in for the SDK `TxResponse` built by `makeTxResult`. -/
structure TxResponse where
  txhash : Bytes
  height : Int
  raw : Bytes
deriving DecidableEq, Repr

/-- Stand-in for the decoded `tx.Tx`. -/
structure ProtoTx where
  body : Bytes
deriving DecidableEq, Repr

/-- Stand-in for `types.Tx`. -/
structure Tx where
  response : TxResponse
  proto : ProtoTx
deriving DecidableEq, Repr

/-! ## Errors, panics, calls -/

/-- The errors the facade returns, one constructor per `fmt.Errorf` site. -/
inductive Error where
  /-- Message "height must be greater than 0, but got %d". -/
  | heightNotPositive (height : Int)
  /-- Message "height %d must be less than or equal to the current blockchain height %d". -/
  | heightAboveLatest (height latestHeight : Int)
  /-- Message "height %d is not available, lowest height is %d". -/
  | heightNotAvailable (height base : Int)
  /-- Message "page should be within [1, %d] range, given %d". -/
  | pageOutOfRange (pages page : Int)
  /-- Message "expected order_by to be either asc or desc or empty". -/
  | invalidOrderBy
  /-- Message "transaction indexing is disabled". -/
  | indexingDisabled
  /-- Message "tx %s not found". -/
  | txNotFound (hash : String)
  /-- Message "expected %T, got %T". -/
  | unexpectedTxType
  /-- Message "error converting transaction: %s". -/
  | convertingTx (cause : String)
  /-- An error produced by a collaborator or library and returned unchanged. -/
  | upstream (msg : String)
deriving DecidableEq, Repr

inductive Panic where
  /-- Message "zero or negative perPage: %d". -/
  | nonPositivePerPage (perPage : Int)
  /-- Call of `make` with a negative capacity. -/
  | makeSliceCapOutOfRange (cap : Int)
  /-- Slice index out of range. -/
  | indexOutOfRange (i : Int) (len : Nat)
deriving DecidableEq, Repr

/-- A call made to a collaborator or to a decoding library. -/
inductive Call where
  | blockStoreHeight
  | blockStoreBase
  | loadBlock (height : Int)
  | loadBlockMeta (height : Int)
  | loadValidators (height : Int)
  | loadABCIResponses (height : Int)
  | hexDecodeString (s : String)
  | indexerGet (hash : Bytes)
  | queryNew (s : String)
  | indexerSearch (q : Query)
  | makeTxResult
  | newTx
deriving DecidableEq, Repr

/-- Result of a function that returns `(T, error)` or panics. -/
inductive Outcome (α : Type) where
  | ok (v : α)
  | fail (e : Error)
  | panic (p : Panic)
deriving DecidableEq, Repr

deriving instance DecidableEq for Except

/-! ## Collaborators -/

structure BlockStore where
  base : Int
  height : Int
  loadBlock : Int → Option Block
  loadBlockMeta : Int → Option BlockMeta

structure StateStore where
  loadValidators : Int → Except Error ValidatorSet
  loadABCIResponses : Int → Except Error ABCIResponses

/-- The interface `txindex.TxIndexer` with its two implementations. -/
inductive TxIndexer where
  | null
  | kv (get : Bytes → Except Error (Option TxResult))
       (search : Query → Except Error (List TxResult))

/-- The type assertion `cp.txIndexer.(*null.TxIndex)`. -/
def TxIndexer.isNull : TxIndexer → Bool
  | .null => true
  | .kv _ _ => false

/-- Method `Get`: the null indexer reports that indexing is disabled. -/
def TxIndexer.get : TxIndexer → Bytes → Except Error (Option TxResult)
  | .null, _ => .error (.upstream "indexing is disabled")
  | .kv g _, h => g h

/-- Method `Search`: the null indexer returns an empty result and no error. -/
def TxIndexer.search : TxIndexer → Query → Except Error (List TxResult)
  | .null, _ => .ok []
  | .kv _ s, q => s q

/-- Functions of other packages used by the facade. -/
structure Lib where
  /-- Function `sort.Slice`, given the comparison on elements. -/
  sortSlice : (TxResult → TxResult → Bool) → List TxResult → List TxResult
  /-- Function `hex.DecodeString`. -/
  hexDecodeString : String → Except Error Bytes
  /-- Function `bftquery.New`. -/
  queryNew : String → Except Error Query
  /-- Method `bfttypes.Tx(tx).Hash()`. -/
  txHash : Bytes → Bytes
  /-- Function `makeTxResult(cp.txConfig, resTx, resBlock)`. -/
  makeTxResult : ResultTx → ResultBlock → Except Error TxResponse
  /-- Assertion `txResponse.Tx.GetCachedValue().(*tx.Tx)`. -/
  cachedTx : TxResponse → Option ProtoTx
  /-- Function `types.NewTx`. -/
  newTx : TxResponse → ProtoTx → Except String Tx

structure Node where
  blockStore : BlockStore
  stateStore : StateStore
  txIndexer : TxIndexer

/-! ## Height resolution and pagination helpers -/

def defaultPerPage : Int := 30

def maxPerPage : Int := 100

/-- Method `getHeight`: `latestHeight` can be either latest committed or uncommitted
(+1) height. -/
def Node.getHeight (cp : Node) (latestHeight : Int) (heightPtr : Option Int) :
    Except Error Int × List Call :=
  match heightPtr with
  | some height =>
    if height ≤ 0 then
      (.error (.heightNotPositive height), [])
    else if height > latestHeight then
      (.error (.heightAboveLatest height latestHeight), [])
    else
      let base := cp.blockStore.base
      if height < base then
        (.error (.heightNotAvailable height base), [.blockStoreBase])
      else
        (.ok height, [.blockStoreBase])
  | none => (.ok latestHeight, [])

def validatePerPage (perPagePtr : Option Int) : Int :=
  match perPagePtr with
  | none => defaultPerPage
  | some perPage =>
    if perPage < 1 then defaultPerPage
    else if perPage > maxPerPage then maxPerPage
    else perPage

def validatePage (pagePtr : Option Int) (perPage totalCount : Int) :
    Except Panic (Int × Option Error) :=
  if perPage < 1 then
    .error (.nonPositivePerPage perPage)
  else
    match pagePtr with
    | none => .ok (1, none)
    | some page =>
      let pages := goAdd (goDiv (goSub totalCount 1) perPage) 1
      let pages := if pages = 0 then 1 else pages
      if page ≤ 0 ∨ page > pages then
        .ok (1, some (.pageOutOfRange pages page))
      else
        .ok (page, none)

def validateSkipCount (page perPage : Int) : Int :=
  let skipCount := goMul (goSub page 1) perPage
  if skipCount < 0 then 0 else skipCount

/-- Function `bftmath.MinInt`. -/
def MinInt (a b : Int) : Int := if a < b then a else b

/-- The value of `pages` in `validatePage` once it has been floored to one. -/
def pagesOf (perPage totalCount : Int) : Int :=
  let pages := goAdd (goDiv (goSub totalCount 1) perPage) 1
  if pages = 0 then 1 else pages

/-- The page count as the specification words it:
`max(1, ceil(totalCount / perPage))`, with the division taken in the
rationals. -/
def pageCountSpec (perPage totalCount : Int) : Int :=
  max 1 ⌈(totalCount : ℚ) / (perPage : ℚ)⌉

/-! ## The query facade -/

/-- Method `Validators`. -/
def Node.Validators (cp : Node) (height : Int) :
    Except Error ResultValidators × List Call :=
  let latest := cp.blockStore.height
  match cp.getHeight latest (some height) with
  | (.error err, calls) => (.error err, Call.blockStoreHeight :: calls)
  | (.ok height, calls) =>
    match cp.stateStore.loadValidators height with
    | .error err =>
      (.error err, Call.blockStoreHeight :: calls ++ [Call.loadValidators height])
    | .ok valSet =>
      (.ok { blockHeight := height
             validators := valSet.validators
             count := valSet.validators.length
             total := valSet.validators.length },
       Call.blockStoreHeight :: calls ++ [Call.loadValidators height])

/-- Method `Block`. -/
def Node.Block (cp : Node) (height : Int) :
    Except Error ResultBlock × List Call :=
  let latest := cp.blockStore.height
  match cp.getHeight latest (some height) with
  | (.error err, calls) => (.error err, Call.blockStoreHeight :: calls)
  | (.ok height, calls) =>
    let block := cp.blockStore.loadBlock height
    let calls := Call.blockStoreHeight :: calls ++
      [Call.loadBlock height, Call.loadBlockMeta height]
    match cp.blockStore.loadBlockMeta height with
    | none => (.ok { blockID := {}, block := block }, calls)
    | some blockMeta => (.ok { blockID := blockMeta.blockID, block := block }, calls)

/-- Method `BlockResults`. -/
def Node.BlockResults (cp : Node) (height : Int) :
    Except Error ResultBlockResults × List Call :=
  let latest := cp.blockStore.height
  match cp.getHeight latest (some height) with
  | (.error err, calls) => (.error err, Call.blockStoreHeight :: calls)
  | (.ok height, calls) =>
    match cp.stateStore.loadABCIResponses height with
    | .error err =>
      (.error err, Call.blockStoreHeight :: calls ++ [Call.loadABCIResponses height])
    | .ok results =>
      (.ok { height := height
             txsResults := results.deliverTxs
             beginBlockEvents := results.beginBlockEvents
             endBlockEvents := results.endBlockEvents
             validatorUpdates := results.validatorUpdates
             consensusParamUpdates := results.consensusParamUpdates },
       Call.blockStoreHeight :: calls ++ [Call.loadABCIResponses height])

/-- Method `Tx`. -/
def Node.Tx (lib : Lib) (cp : Node) (hash : String) :
    Except Error Tx × List Call :=
  -- if index is disabled, return error
  if cp.txIndexer.isNull then
    (.error .indexingDisabled, [])
  else
    match lib.hexDecodeString hash with
    | .error err => (.error err, [Call.hexDecodeString hash])
    | .ok hashBz =>
      let calls := [Call.hexDecodeString hash, Call.indexerGet hashBz]
      match cp.txIndexer.get hashBz with
      | .error err => (.error err, calls)
      | .ok none => (.error (.txNotFound hash), calls)
      | .ok (some r) =>
        let resTx : ResultTx :=
          { hash := hash.toUTF8.toList
            height := r.height
            index := r.index
            txResult := r.result
            tx := r.tx
            proof := {} }
        match cp.Block resTx.height with
        | (.error err, blockCalls) => (.error err, calls ++ blockCalls)
        | (.ok resBlock, blockCalls) =>
          let calls := calls ++ blockCalls ++ [Call.makeTxResult]
          match lib.makeTxResult resTx resBlock with
          | .error err => (.error err, calls)
          | .ok txResponse =>
            match lib.cachedTx txResponse with
            | none => (.error .unexpectedTxType, calls)
            | some protoTx =>
              match lib.newTx txResponse protoTx with
              | .error msg => (.error (.convertingTx msg), calls ++ [Call.newTx])
              | .ok convTx => (.ok convTx, calls ++ [Call.newTx])

/-! ## Transaction search -/

/-- The comparison passed to `sort.Slice` for `orderBy == "desc"`. -/
def lessDesc (a b : TxResult) : Bool :=
  if a.height = b.height then decide (a.index > b.index)
  else decide (a.height > b.height)

/-- The comparison passed to `sort.Slice` for `orderBy == "asc"` or `""`. -/
def lessAsc (a b : TxResult) : Bool :=
  if a.height = b.height then decide (a.index < b.index)
  else decide (a.height < b.height)

/-- The `switch orderBy` of `TxSearch`: sort results (must be done before
pagination). -/
def sortResults (lib : Lib) (orderBy : String) (results : List TxResult) :
    Except Error (List TxResult) :=
  if orderBy = "desc" then
    .ok (lib.sortSlice lessDesc results)
  else if orderBy = "asc" ∨ orderBy = "" then
    .ok (lib.sortSlice lessAsc results)
  else
    .error .invalidOrderBy

/-- The element `results[i]`, or nothing when `i` is out of range. -/
def sliceIndex (results : List TxResult) (i : Int) : Option TxResult :=
  if i < 0 then none else results[i.toNat]?

/-- The value appended to `apiResults` for the hit `r`. -/
def toResultTx (lib : Lib) (r : TxResult) : ResultTx :=
  { hash := lib.txHash r.tx
    height := r.height
    index := r.index
    txResult := r.result
    tx := r.tx
    proof := {} }

/-- The loop `for i := skipCount; i < skipCount+pageSize; i++` of `TxSearch`,
entered at `i` with `apiResults` collected so far; `stop` is the value of
`skipCount+pageSize`.  The first argument bounds the number of iterations; the
loop variable grows by one per iteration, so `(stop - i).toNat` is never
exhausted before `i` reaches `stop`. -/
def txSearchLoop (lib : Lib) (results : List TxResult) (stop : Int) :
    Nat → Int → List ResultTx → Except Panic (List ResultTx)
  | 0, _, apiResults => .ok apiResults
  | n + 1, i, apiResults =>
    if i < stop then
      match sliceIndex results i with
      | none => .error (.indexOutOfRange i results.length)
      | some r => txSearchLoop lib results stop n (goAdd i 1) (apiResults ++ [toResultTx lib r])
    else
      .ok apiResults

/-- The pagination part of `TxSearch` (paginate results), applied to the
sorted `results`. -/
def paginateResults (lib : Lib) (results : List TxResult)
    (pagePtr perPagePtr : Option Int) : Outcome ResultTxSearch :=
  let totalCount : Int := results.length
  let perPage := validatePerPage perPagePtr
  match validatePage pagePtr perPage totalCount with
  | .error p => .panic p
  | .ok (_, some err) => .fail err
  | .ok (page, none) =>
    let skipCount := validateSkipCount page perPage
    let pageSize := MinInt perPage (goSub totalCount skipCount)
    if pageSize < 0 then
      .panic (.makeSliceCapOutOfRange pageSize)
    else
      let stop := goAdd skipCount pageSize
      match txSearchLoop lib results stop (stop - skipCount).toNat skipCount [] with
      | .error p => .panic p
      | .ok apiResults => .ok { txs := apiResults, totalCount := totalCount }

/-- Method `TxSearch`. -/
def Node.TxSearch (lib : Lib) (cp : Node) (query : String)
    (pagePtr perPagePtr : Option Int) (orderBy : String) :
    Outcome ResultTxSearch × List Call :=
  match lib.queryNew query with
  | .error err => (.fail err, [Call.queryNew query])
  | .ok q =>
    let calls := [Call.queryNew query, Call.indexerSearch q]
    match cp.txIndexer.search q with
    | .error err => (.fail err, calls)
    | .ok results =>
      match sortResults lib orderBy results with
      | .error err => (.fail err, calls)
      | .ok results => (paginateResults lib results pagePtr perPagePtr, calls)

/-! ## The contract of `sort.Slice` -/

/-- The requirement `sort.Slice` places on its comparison: a strict weak
ordering. -/
structure StrictWeakOrder {α : Type} (less : α → α → Bool) : Prop where
  irrefl : ∀ a, less a a = false
  trans : ∀ a b c, less a b = true → less b c = true → less a c = true
  incomp_trans : ∀ a b c, less a b = false → less b c = false → less a c = false

/-- What `sort.Slice` guarantees: the slice is rearranged, and when the
comparison is a strict weak ordering no later element is less than an earlier
one.  Nothing is promised about the relative order of equal elements. -/
def Lib.SortsSlices (lib : Lib) : Prop :=
  ∀ (less : TxResult → TxResult → Bool) (l : List TxResult),
    (lib.sortSlice less l).Perm l ∧
    (StrictWeakOrder less →
      (lib.sortSlice less l).Pairwise (fun a b => less b a = false))

/-- Ascending order of the key `(height, index)`. -/
def KeyLe (a b : TxResult) : Prop :=
  a.height < b.height ∨ (a.height = b.height ∧ a.index ≤ b.index)

/-- Descending order of the key `(height, index)`. -/
def KeyGe (a b : TxResult) : Prop :=
  a.height > b.height ∨ (a.height = b.height ∧ a.index ≥ b.index)

instance (a b : TxResult) : Decidable (KeyLe a b) := by
  unfold KeyLe; exact inferInstance

instance (a b : TxResult) : Decidable (KeyGe a b) := by
  unfold KeyGe; exact inferInstance

/-! ## Test doubles -/

/-- A sorter meeting the contract of `sort.Slice`: insertion sort. -/
def insertionSortSlice (less : TxResult → TxResult → Bool) (l : List TxResult) :
    List TxResult :=
  List.insertionSort (fun a b => less b a = false) l

/-- Recognises the characters `0-9`, `A-F` and `a-f`. -/
def isHexDigit (c : Char) : Bool :=
  (48 ≤ c.toNat && c.toNat ≤ 57) || (65 ≤ c.toNat && c.toNat ≤ 70) ||
    (97 ≤ c.toNat && c.toNat ≤ 102)

/-- Library double used in the examples. -/
def demoLib : Lib where
  sortSlice := insertionSortSlice
  hexDecodeString := fun s =>
    if s.length % 2 = 0 ∧ s.data.all isHexDigit then .ok (s.data.map (fun c => c.toNat.toUInt8))
    else .error (.upstream "encoding/hex: invalid input")
  queryNew := fun s => .ok { source := s }
  txHash := fun tx => tx
  makeTxResult := fun resTx _ => .ok { txhash := resTx.hash, height := resTx.height, raw := resTx.tx }
  cachedTx := fun r => some { body := r.raw }
  newTx := fun r p => .ok { response := r, proto := p }

/-- A hit with the given height and index and an empty payload. -/
def hit (height : Int) (index : Nat) : TxResult :=
  { height := height, index := index, tx := [], result := { code := 0, data := [] } }

/-- Node double: a block store with the given bounds and an indexer. -/
def demoNode (base height : Int) (txIndexer : TxIndexer) : Node where
  blockStore :=
    { base := base
      height := height
      loadBlock := fun h => some { height := h, txs := [] }
      loadBlockMeta := fun _ => none }
  stateStore :=
    { loadValidators := fun _ => .ok { validators := [] }
      loadABCIResponses := fun _ =>
        .ok { deliverTxs := [], beginBlockEvents := [], endBlockEvents := [],
              validatorUpdates := [], consensusParamUpdates := none } }
  txIndexer := txIndexer

/-- Indexer double returning a fixed list of hits for every query. -/
def fixedIndexer (hits : List TxResult) : TxIndexer :=
  .kv (fun _ => .ok none) (fun _ => .ok hits)

/-- The seven hits of the search scenario, in storage order. -/
def scenarioHits : List TxResult :=
  [hit 3 1, hit 1 1, hit 5 0, hit 3 0, hit 2 0, hit 3 2, hit 1 0]

/-! ## Properties -/

/-! ### Machine arithmetic -/

theorem wrapInt_of_inRange {x : Int} (h : InRange x) : wrapInt x = x := by
  unfold InRange at h
  unfold wrapInt
  omega

/-! ### Height resolution -/

/-- C2: `getHeight` returns `latestHeight` when no height is requested; with a
requested height it fails with the invalid-height error when the height is not
positive, else with the out-of-range error when it exceeds `latestHeight`, else
with the pruned error when it is below the store base, and otherwise returns
the requested height unchanged.  So with a requested height it succeeds exactly
when `1 ≤ requested ≤ latestHeight` and `base ≤ requested`. -/
theorem getHeight_spec (cp : Node) (latestHeight : Int) :
    (cp.getHeight latestHeight none).1 = .ok latestHeight ∧
    (∀ requested : Int,
      (cp.getHeight latestHeight (some requested)).1 =
        if requested ≤ 0 then .error (.heightNotPositive requested)
        else if requested > latestHeight then
          .error (.heightAboveLatest requested latestHeight)
        else if requested < cp.blockStore.base then
          .error (.heightNotAvailable requested cp.blockStore.base)
        else .ok requested) ∧
    (∀ requested : Int,
      ((∃ h, (cp.getHeight latestHeight (some requested)).1 = .ok h) ↔
        (1 ≤ requested ∧ requested ≤ latestHeight ∧ cp.blockStore.base ≤ requested)) ∧
      (∀ h, (cp.getHeight latestHeight (some requested)).1 = .ok h → h = requested)) ∧
    ((demoNode 0 100 .null).getHeight 100 none).1 = .ok 100 ∧
    ((demoNode 0 100 .null).getHeight 100 (some 150)).1 =
      .error (.heightAboveLatest 150 100) ∧
    ((demoNode 10 100 .null).getHeight 100 (some 5)).1 =
      .error (.heightNotAvailable 5 10) ∧
    ((demoNode 0 100 .null).getHeight 100 (some 0)).1 =
      .error (.heightNotPositive 0) := by
  refine ⟨rfl, ?_, ?_, rfl, rfl, rfl, rfl⟩
  · intro requested
    simp only [Node.getHeight]
    split_ifs <;> rfl
  · intro requested
    simp only [Node.getHeight]
    constructor
    · constructor
      · rintro ⟨h, hh⟩
        split_ifs at hh
        omega
      · rintro ⟨h1, h2, h3⟩
        refine ⟨requested, ?_⟩
        rw [if_neg (by omega), if_neg (by omega), if_neg (by omega)]
    · intro h hh
      split_ifs at hh
      injection hh with hh
      exact hh.symm

/-! ### The facade methods in terms of the resolved height -/

theorem Validators_resolved (cp : Node) (height : Int) (h1 : 0 < height)
    (h2 : height ≤ cp.blockStore.height) (h3 : cp.blockStore.base ≤ height) :
    cp.Validators height =
      match cp.stateStore.loadValidators height with
      | .error err =>
        (.error err, [Call.blockStoreHeight, Call.blockStoreBase, Call.loadValidators height])
      | .ok valSet =>
        (.ok { blockHeight := height
               validators := valSet.validators
               count := valSet.validators.length
               total := valSet.validators.length },
         [Call.blockStoreHeight, Call.blockStoreBase, Call.loadValidators height]) := by
  simp only [Node.Validators, Node.getHeight]
  rw [if_neg (by omega), if_neg (by omega), if_neg (by omega)]
  simp only [List.cons_append, List.nil_append]

theorem Validators_rejected (cp : Node) (height : Int)
    (h : height ≤ 0 ∨ cp.blockStore.height < height ∨ height < cp.blockStore.base) :
    ∃ err calls, cp.Validators height = (.error err, calls) ∧
      ∀ c ∈ calls, c = Call.blockStoreHeight ∨ c = Call.blockStoreBase := by
  simp only [Node.Validators, Node.getHeight]
  split_ifs
  · exact ⟨_, _, rfl, by simp⟩
  · exact ⟨_, _, rfl, by simp⟩
  · exact ⟨_, _, rfl, by simp⟩
  · omega

theorem Block_resolved (cp : Node) (height : Int) (h1 : 0 < height)
    (h2 : height ≤ cp.blockStore.height) (h3 : cp.blockStore.base ≤ height) :
    cp.Block height =
      match cp.blockStore.loadBlockMeta height with
      | none =>
        (.ok { blockID := {}, block := cp.blockStore.loadBlock height },
         [Call.blockStoreHeight, Call.blockStoreBase, Call.loadBlock height,
          Call.loadBlockMeta height])
      | some blockMeta =>
        (.ok { blockID := blockMeta.blockID, block := cp.blockStore.loadBlock height },
         [Call.blockStoreHeight, Call.blockStoreBase, Call.loadBlock height,
          Call.loadBlockMeta height]) := by
  simp only [Node.Block, Node.getHeight]
  rw [if_neg (by omega), if_neg (by omega), if_neg (by omega)]
  simp only [List.cons_append, List.nil_append]

theorem Block_rejected (cp : Node) (height : Int)
    (h : height ≤ 0 ∨ cp.blockStore.height < height ∨ height < cp.blockStore.base) :
    ∃ err calls, cp.Block height = (.error err, calls) ∧
      ∀ c ∈ calls, c = Call.blockStoreHeight ∨ c = Call.blockStoreBase := by
  simp only [Node.Block, Node.getHeight]
  split_ifs
  · exact ⟨_, _, rfl, by simp⟩
  · exact ⟨_, _, rfl, by simp⟩
  · exact ⟨_, _, rfl, by simp⟩
  · omega

theorem BlockResults_resolved (cp : Node) (height : Int) (h1 : 0 < height)
    (h2 : height ≤ cp.blockStore.height) (h3 : cp.blockStore.base ≤ height) :
    cp.BlockResults height =
      match cp.stateStore.loadABCIResponses height with
      | .error err =>
        (.error err,
         [Call.blockStoreHeight, Call.blockStoreBase, Call.loadABCIResponses height])
      | .ok results =>
        (.ok { height := height
               txsResults := results.deliverTxs
               beginBlockEvents := results.beginBlockEvents
               endBlockEvents := results.endBlockEvents
               validatorUpdates := results.validatorUpdates
               consensusParamUpdates := results.consensusParamUpdates },
         [Call.blockStoreHeight, Call.blockStoreBase, Call.loadABCIResponses height]) := by
  simp only [Node.BlockResults, Node.getHeight]
  rw [if_neg (by omega), if_neg (by omega), if_neg (by omega)]
  simp only [List.cons_append, List.nil_append]

theorem BlockResults_rejected (cp : Node) (height : Int)
    (h : height ≤ 0 ∨ cp.blockStore.height < height ∨ height < cp.blockStore.base) :
    ∃ err calls, cp.BlockResults height = (.error err, calls) ∧
      ∀ c ∈ calls, c = Call.blockStoreHeight ∨ c = Call.blockStoreBase := by
  simp only [Node.BlockResults, Node.getHeight]
  split_ifs
  · exact ⟨_, _, rfl, by simp⟩
  · exact ⟨_, _, rfl, by simp⟩
  · exact ⟨_, _, rfl, by simp⟩
  · omega

/-- A successful `Validators` has a height accepted by `getHeight`, reports it
as `BlockHeight`, and loads the validators at that height. -/
theorem Validators_ok (cp : Node) (height : Int) (r : ResultValidators)
    (calls : List Call) (hr : cp.Validators height = (.ok r, calls)) :
    0 < height ∧ height ≤ cp.blockStore.height ∧ cp.blockStore.base ≤ height ∧
    r.blockHeight = height ∧
    calls = [Call.blockStoreHeight, Call.blockStoreBase, Call.loadValidators height] := by
  by_cases h : height ≤ 0 ∨ cp.blockStore.height < height ∨ height < cp.blockStore.base
  · obtain ⟨err, calls, he, -⟩ := Validators_rejected cp height h
    rw [he] at hr
    simp at hr
  · have h1 : 0 < height := by omega
    have h2 : height ≤ cp.blockStore.height := by omega
    have h3 : cp.blockStore.base ≤ height := by omega
    rw [Validators_resolved cp height h1 h2 h3] at hr
    refine ⟨h1, h2, h3, ?_⟩
    split at hr
    · simp at hr
    · simp only [Prod.mk.injEq, Except.ok.injEq] at hr
      obtain ⟨hr, hc⟩ := hr
      subst hr
      exact ⟨rfl, hc.symm⟩

/-- A successful `Block` has a height accepted by `getHeight` and loads the
block and its metadata at that height. -/
theorem Block_ok (cp : Node) (height : Int) (r : ResultBlock)
    (calls : List Call) (hr : cp.Block height = (.ok r, calls)) :
    0 < height ∧ height ≤ cp.blockStore.height ∧ cp.blockStore.base ≤ height ∧
    r.block = cp.blockStore.loadBlock height ∧
    calls = [Call.blockStoreHeight, Call.blockStoreBase, Call.loadBlock height,
      Call.loadBlockMeta height] := by
  by_cases h : height ≤ 0 ∨ cp.blockStore.height < height ∨ height < cp.blockStore.base
  · obtain ⟨err, calls, he, -⟩ := Block_rejected cp height h
    rw [he] at hr
    simp at hr
  · have h1 : 0 < height := by omega
    have h2 : height ≤ cp.blockStore.height := by omega
    have h3 : cp.blockStore.base ≤ height := by omega
    rw [Block_resolved cp height h1 h2 h3] at hr
    refine ⟨h1, h2, h3, ?_⟩
    split at hr
    · simp only [Prod.mk.injEq, Except.ok.injEq] at hr
      obtain ⟨hr, hc⟩ := hr
      subst hr
      exact ⟨rfl, hc.symm⟩
    · simp only [Prod.mk.injEq, Except.ok.injEq] at hr
      obtain ⟨hr, hc⟩ := hr
      subst hr
      exact ⟨rfl, hc.symm⟩

/-- A successful `BlockResults` has a height accepted by `getHeight`, reports
it as `Height`, and loads the responses at that height. -/
theorem BlockResults_ok (cp : Node) (height : Int) (r : ResultBlockResults)
    (calls : List Call) (hr : cp.BlockResults height = (.ok r, calls)) :
    0 < height ∧ height ≤ cp.blockStore.height ∧ cp.blockStore.base ≤ height ∧
    r.height = height ∧
    calls = [Call.blockStoreHeight, Call.blockStoreBase, Call.loadABCIResponses height] := by
  by_cases h : height ≤ 0 ∨ cp.blockStore.height < height ∨ height < cp.blockStore.base
  · obtain ⟨err, calls, he, -⟩ := BlockResults_rejected cp height h
    rw [he] at hr
    simp at hr
  · have h1 : 0 < height := by omega
    have h2 : height ≤ cp.blockStore.height := by omega
    have h3 : cp.blockStore.base ≤ height := by omega
    rw [BlockResults_resolved cp height h1 h2 h3] at hr
    refine ⟨h1, h2, h3, ?_⟩
    split at hr
    · simp at hr
    · simp only [Prod.mk.injEq, Except.ok.injEq] at hr
      obtain ⟨hr, hc⟩ := hr
      subst hr
      exact ⟨rfl, hc.symm⟩

/-- Witness for C2: height 42 against a store with base 10 and height 100. -/
theorem getHeight_spec_witness :
    (∃ h, ((demoNode 10 100 .null).getHeight 100 (some 42)).1 = .ok h) ∧
    ((1 : Int) ≤ 42 ∧ (42 : Int) ≤ 100 ∧ (demoNode 10 100 .null).blockStore.base ≤ 42) :=
  ⟨⟨42, rfl⟩, ((getHeight_spec (demoNode 10 100 .null) 100).2.2.1 42).1.mp ⟨42, rfl⟩⟩

/-- C7: every height `getHeight` returns successfully, whether a height is
requested or not, satisfies `base ≤ height ≤ latestHeight`, for every bound
`latestHeight` that is not below the store base (the callers pass the store
height, and the bound is documented as the latest committed height or that
plus one); and the `BlockHeight` reported by `Validators` and the `Height`
reported by `BlockResults` always lie between the store base and the store
height, the bound those methods pass. -/
theorem getHeight_bounds (cp : Node) (latestHeight : Int) (requested : Option Int)
    (h : Int) (hbase : cp.blockStore.base ≤ latestHeight)
    (hh : (cp.getHeight latestHeight requested).1 = .ok h) :
    (cp.blockStore.base ≤ h ∧ h ≤ latestHeight) ∧
    (requested = none → h = latestHeight) ∧
    (∀ r : Int, requested = some r → h = r ∧ 0 < r) ∧
    (∀ (height : Int) (r : ResultValidators),
      (cp.Validators height).1 = .ok r →
        cp.blockStore.base ≤ r.blockHeight ∧ r.blockHeight ≤ cp.blockStore.height) ∧
    (∀ (height : Int) (r : ResultBlockResults),
      (cp.BlockResults height).1 = .ok r →
        cp.blockStore.base ≤ r.height ∧ r.height ≤ cp.blockStore.height) := by
  refine ⟨?_, ?_, ?_, ?_, ?_⟩
  · cases requested with
    | none =>
      simp only [Node.getHeight] at hh
      injection hh with hh
      subst hh
      exact ⟨hbase, le_refl _⟩
    | some r =>
      simp only [Node.getHeight] at hh
      split_ifs at hh
      injection hh with hh
      subst hh
      constructor <;> omega
  · intro hnone
    subst hnone
    simp only [Node.getHeight] at hh
    injection hh with hh
    exact hh.symm
  · intro r hsome
    subst hsome
    simp only [Node.getHeight] at hh
    split_ifs at hh
    injection hh with hh
    subst hh
    exact ⟨rfl, by omega⟩
  · intro height r hr
    obtain ⟨h1, h2, h3, h4, -⟩ := Validators_ok cp height r (cp.Validators height).2
      (Prod.ext hr rfl)
    omega
  · intro height r hr
    obtain ⟨h1, h2, h3, h4, -⟩ := BlockResults_ok cp height r (cp.BlockResults height).2
      (Prod.ext hr rfl)
    omega

/-- Witness for C7: no requested height against a store with base 10 and
height 100, the bound being the store height. -/
theorem getHeight_bounds_witness :
    (demoNode 10 100 .null).blockStore.base ≤ (demoNode 10 100 .null).blockStore.height ∧
    ((demoNode 10 100 .null).getHeight (demoNode 10 100 .null).blockStore.height none).1 =
      .ok 100 ∧
    ((demoNode 10 100 .null).blockStore.base ≤ (100 : Int) ∧
      (100 : Int) ≤ (demoNode 10 100 .null).blockStore.height) :=
  ⟨by decide, rfl,
   (getHeight_bounds (demoNode 10 100 .null) (demoNode 10 100 .null).blockStore.height
     none 100 (by decide) rfl).1⟩

/-- C10: `Validators`, `Block` and `BlockResults` hand their height to
`getHeight` as a present value: for a height `h ≤ 0` each of them fails with the
invalid-height error having only read the store height (no load is made), and
whenever one of them succeeds the height it resolved, reported and loaded at is
`h` itself. -/
theorem facade_height_always_present (cp : Node) (h : Int) :
    (h ≤ 0 →
      cp.Validators h = (.error (.heightNotPositive h), [Call.blockStoreHeight]) ∧
      cp.Block h = (.error (.heightNotPositive h), [Call.blockStoreHeight]) ∧
      cp.BlockResults h = (.error (.heightNotPositive h), [Call.blockStoreHeight])) ∧
    (∀ r calls, cp.Validators h = (.ok r, calls) →
      (cp.getHeight cp.blockStore.height (some h)).1 = .ok h ∧ r.blockHeight = h ∧
      calls = [Call.blockStoreHeight, Call.blockStoreBase, Call.loadValidators h]) ∧
    (∀ r calls, cp.Block h = (.ok r, calls) →
      (cp.getHeight cp.blockStore.height (some h)).1 = .ok h ∧
      r.block = cp.blockStore.loadBlock h ∧
      calls = [Call.blockStoreHeight, Call.blockStoreBase, Call.loadBlock h,
        Call.loadBlockMeta h]) ∧
    (∀ r calls, cp.BlockResults h = (.ok r, calls) →
      (cp.getHeight cp.blockStore.height (some h)).1 = .ok h ∧ r.height = h ∧
      calls = [Call.blockStoreHeight, Call.blockStoreBase, Call.loadABCIResponses h]) := by
  have hget : 0 < h → h ≤ cp.blockStore.height → cp.blockStore.base ≤ h →
      (cp.getHeight cp.blockStore.height (some h)).1 = .ok h := by
    intro h1 h2 h3
    simp only [Node.getHeight]
    rw [if_neg (by omega), if_neg (by omega), if_neg (by omega)]
  refine ⟨?_, ?_, ?_, ?_⟩
  · intro hle
    refine ⟨?_, ?_, ?_⟩
    · simp only [Node.Validators, Node.getHeight]
      rw [if_pos hle]
    · simp only [Node.Block, Node.getHeight]
      rw [if_pos hle]
    · simp only [Node.BlockResults, Node.getHeight]
      rw [if_pos hle]
  · intro r calls hr
    obtain ⟨h1, h2, h3, h4, h5⟩ := Validators_ok cp h r calls hr
    exact ⟨hget h1 h2 h3, h4, h5⟩
  · intro r calls hr
    obtain ⟨h1, h2, h3, h4, h5⟩ := Block_ok cp h r calls hr
    exact ⟨hget h1 h2 h3, h4, h5⟩
  · intro r calls hr
    obtain ⟨h1, h2, h3, h4, h5⟩ := BlockResults_ok cp h r calls hr
    exact ⟨hget h1 h2 h3, h4, h5⟩

/-- Witness for C10: height 0 against a store with base 1 and height 100. -/
theorem facade_height_always_present_witness :
    (0 : Int) ≤ 0 ∧
    ((demoNode 1 100 .null).Validators 0 =
        (.error (.heightNotPositive 0), [Call.blockStoreHeight]) ∧
      (demoNode 1 100 .null).Block 0 =
        (.error (.heightNotPositive 0), [Call.blockStoreHeight]) ∧
      (demoNode 1 100 .null).BlockResults 0 =
        (.error (.heightNotPositive 0), [Call.blockStoreHeight])) :=
  ⟨le_refl 0, (facade_height_always_present (demoNode 1 100 .null) 0).1 (le_refl 0)⟩

/-! ### Transaction lookup -/

/-- C8: with the null transaction indexer `Tx` fails with the
indexing-disabled error for every hash string, and it has then made no call at
all: the hash is not decoded, and neither the indexer nor the block store is
consulted. -/
theorem Tx_null_indexer (lib : Lib) (cp : Node) (hash : String)
    (hnull : cp.txIndexer = .null) :
    cp.Tx lib hash = (.error .indexingDisabled, []) := by
  simp only [Node.Tx, hnull, TxIndexer.isNull]
  rfl

/-- Witness for C8: the malformed hash `zz` against a node with the null
indexer. -/
theorem Tx_null_indexer_witness :
    (demoNode 1 100 .null).txIndexer = .null ∧
    (demoNode 1 100 .null).Tx demoLib "zz" = (.error .indexingDisabled, []) :=
  ⟨rfl, Tx_null_indexer demoLib (demoNode 1 100 .null) "zz" rfl⟩

/-! ### Pagination -/

/-- C4: `validatePerPage` returns 30 when `perPage` is absent, 30 when it is
below 1, 100 when it is above 100, and `perPage` itself when it lies in
`[1, 100]`; its result always lies in `[1, 100]`. -/
theorem validatePerPage_spec :
    validatePerPage none = 30 ∧
    (∀ perPage : Int, perPage < 1 → validatePerPage (some perPage) = 30) ∧
    (∀ perPage : Int, 100 < perPage → validatePerPage (some perPage) = 100) ∧
    (∀ perPage : Int, 1 ≤ perPage → perPage ≤ 100 →
      validatePerPage (some perPage) = perPage) ∧
    (∀ perPagePtr : Option Int,
      1 ≤ validatePerPage perPagePtr ∧ validatePerPage perPagePtr ≤ 100) ∧
    validatePerPage (some (-5)) = 30 ∧
    validatePerPage (some 500) = 100 ∧
    validatePerPage (some 42) = 42 := by
  refine ⟨rfl, ?_, ?_, ?_, ?_, rfl, rfl, rfl⟩
  · intro perPage h
    simp only [validatePerPage, defaultPerPage]
    rw [if_pos h]
  · intro perPage h
    simp only [validatePerPage, maxPerPage]
    rw [if_neg (by omega), if_pos h]
  · intro perPage h1 h2
    simp only [validatePerPage, maxPerPage]
    rw [if_neg (by omega), if_neg (by omega)]
  · intro perPagePtr
    cases perPagePtr with
    | none => simp [validatePerPage, defaultPerPage]
    | some perPage =>
      simp only [validatePerPage, defaultPerPage, maxPerPage]
      split_ifs <;> omega

/-- Witness for C4: the four sample requests. -/
theorem validatePerPage_spec_witness :
    ((-5 : Int) < 1 ∧ validatePerPage (some (-5)) = 30) ∧
    ((100 : Int) < 500 ∧ validatePerPage (some 500) = 100) ∧
    ((1 : Int) ≤ 42 ∧ (42 : Int) ≤ 100 ∧ validatePerPage (some 42) = 42) :=
  ⟨⟨by decide, validatePerPage_spec.2.1 (-5) (by decide)⟩,
   ⟨by decide, validatePerPage_spec.2.2.1 500 (by decide)⟩,
   ⟨by decide, by decide, validatePerPage_spec.2.2.2.1 42 (by decide) (by decide)⟩⟩

theorem ceil_div_eq (t p : Int) (hp : 1 ≤ p) :
    ⌈(t : ℚ) / (p : ℚ)⌉ = (t - 1) / p + 1 := by
  have hpq : (0 : ℚ) < (p : ℚ) := by exact_mod_cast (by omega : (0 : Int) < p)
  have h1 : (t - 1) / p * p ≤ t - 1 := Int.ediv_mul_le _ (by omega)
  have h2 : t - 1 < ((t - 1) / p + 1) * p := Int.lt_ediv_add_one_mul_self _ (by omega)
  rw [Int.ceil_eq_iff]
  constructor
  · rw [lt_div_iff₀ hpq]
    have h3 : (t - 1) / p * p < t := by omega
    have h4 : (((t - 1) / p * p : Int) : ℚ) < (t : ℚ) := by exact_mod_cast h3
    push_cast at h4 ⊢
    linarith
  · rw [div_le_iff₀ hpq]
    have h3 : t ≤ ((t - 1) / p + 1) * p := by omega
    have h4 : (t : ℚ) ≤ ((((t - 1) / p + 1) * p : Int) : ℚ) := by exact_mod_cast h3
    push_cast at h4 ⊢
    linarith

theorem pagesOf_pos (perPage totalCount : Int) (hp : 1 ≤ perPage) (ht : 1 ≤ totalCount)
    (htr : InRange totalCount) :
    pagesOf perPage totalCount = (totalCount - 1) / perPage + 1 := by
  have hsub : goSub totalCount 1 = totalCount - 1 := by
    unfold goSub; apply wrapInt_of_inRange; unfold InRange at *; omega
  have hq0 : 0 ≤ (totalCount - 1) / perPage := Int.ediv_nonneg (by omega) (by omega)
  have hq1 : (totalCount - 1) / perPage ≤ totalCount - 1 :=
    Int.ediv_le_self _ (by omega)
  have hdiv : goDiv (totalCount - 1) perPage = (totalCount - 1) / perPage := by
    unfold goDiv
    rw [Int.tdiv_eq_ediv (by omega) (by omega)]
    apply wrapInt_of_inRange; unfold InRange at *; omega
  have hadd : goAdd ((totalCount - 1) / perPage) 1 = (totalCount - 1) / perPage + 1 := by
    unfold goAdd; apply wrapInt_of_inRange; unfold InRange at *; omega
  unfold pagesOf
  simp only [hsub, hdiv, hadd]
  rw [if_neg (by omega)]

theorem pagesOf_zero (perPage : Int) (hp : 1 ≤ perPage) :
    pagesOf perPage 0 = 1 := by
  unfold pagesOf goSub
  have h0 : wrapInt (0 - 1) = -1 := by decide
  rw [h0]
  have hneg : Int.tdiv (-1) perPage = -(1 / perPage) := by
    rw [show (-1 : Int) = -(1 : Int) from rfl, Int.neg_tdiv,
      Int.tdiv_eq_ediv (by omega) (by omega)]
  by_cases h1 : perPage = 1
  · subst h1
    decide
  · have h2 : (1 : Int) / perPage = 0 := Int.ediv_eq_zero_of_lt (by omega) (by omega)
    unfold goDiv goAdd
    rw [hneg, h2]
    decide

theorem pagesOf_eq_spec (perPage totalCount : Int) (hp : 1 ≤ perPage) (ht : 0 ≤ totalCount)
    (htr : InRange totalCount) :
    pagesOf perPage totalCount = pageCountSpec perPage totalCount := by
  unfold pageCountSpec
  rcases (by omega : totalCount = 0 ∨ 1 ≤ totalCount) with h | h
  · subst h
    rw [pagesOf_zero perPage hp]
    simp
  · rw [pagesOf_pos perPage totalCount hp h htr, ceil_div_eq totalCount perPage hp]
    have hq0 : 0 ≤ (totalCount - 1) / perPage := Int.ediv_nonneg (by omega) (by omega)
    rw [max_eq_right (by omega)]

theorem validatePage_some (page perPage totalCount : Int) (hp : 1 ≤ perPage) :
    validatePage (some page) perPage totalCount =
      if page ≤ 0 ∨ page > pagesOf perPage totalCount then
        .ok (1, some (.pageOutOfRange (pagesOf perPage totalCount) page))
      else .ok (page, none) := by
  simp only [validatePage, pagesOf]
  rw [if_neg (by omega)]

theorem validatePage_none (perPage totalCount : Int) (hp : 1 ≤ perPage) :
    validatePage none perPage totalCount = .ok (1, none) := by
  simp only [validatePage]
  rw [if_neg (by omega)]

/-- C3: for `perPage ≥ 1` and `totalCount ≥ 0`, the page count computed by
`validatePage` with Go's truncating division equals
`max(1, ceil(totalCount / perPage))`; `validatePage` returns 1 without error
when no page is requested, returns the requested page without error exactly
when it lies in `[1, pageCount]`, and returns the value 1 together with the
page-out-of-range error exactly when it is below 1 or above `pageCount`. -/
theorem validatePage_spec (perPage totalCount : Int) (hp : 1 ≤ perPage)
    (ht : 0 ≤ totalCount) (htr : InRange totalCount) :
    pagesOf perPage totalCount = pageCountSpec perPage totalCount ∧
    validatePage none perPage totalCount = .ok (1, none) ∧
    ∀ requested : Int,
      (validatePage (some requested) perPage totalCount = .ok (requested, none) ↔
        1 ≤ requested ∧ requested ≤ pageCountSpec perPage totalCount) ∧
      (validatePage (some requested) perPage totalCount =
          .ok (1, some (.pageOutOfRange (pageCountSpec perPage totalCount) requested)) ↔
        requested < 1 ∨ requested > pageCountSpec perPage totalCount) ∧
      ((∃ err, validatePage (some requested) perPage totalCount = .ok (1, some err)) ↔
        requested < 1 ∨ requested > pageCountSpec perPage totalCount) := by
  have hpages := pagesOf_eq_spec perPage totalCount hp ht htr
  refine ⟨hpages, validatePage_none perPage totalCount hp, ?_⟩
  intro requested
  rw [validatePage_some requested perPage totalCount hp, hpages]
  by_cases hc : requested ≤ 0 ∨ requested > pageCountSpec perPage totalCount
  · rw [if_pos hc]
    refine ⟨?_, ?_, ?_⟩
    · constructor
      · intro h
        simp at h
      · intro h
        omega
    · constructor
      · intro _
        omega
      · intro _
        rfl
    · constructor
      · intro _
        omega
      · intro _
        exact ⟨_, rfl⟩
  · rw [if_neg hc]
    refine ⟨?_, ?_, ?_⟩
    · constructor
      · intro _
        omega
      · intro _
        rfl
    · constructor
      · intro h
        simp at h
      · intro h
        omega
    · constructor
      · rintro ⟨err, h⟩
        simp at h
      · intro h
        omega

/-- Witness for C3: seven results at three per page. -/
theorem validatePage_spec_witness :
    (1 : Int) ≤ 3 ∧ (0 : Int) ≤ 7 ∧ InRange 7 ∧
    (pagesOf 3 7 = pageCountSpec 3 7 ∧
      validatePage none 3 7 = .ok (1, none) ∧
      ∀ requested : Int,
        (validatePage (some requested) 3 7 = .ok (requested, none) ↔
          1 ≤ requested ∧ requested ≤ pageCountSpec 3 7) ∧
        (validatePage (some requested) 3 7 =
            .ok (1, some (.pageOutOfRange (pageCountSpec 3 7) requested)) ↔
          requested < 1 ∨ requested > pageCountSpec 3 7) ∧
        ((∃ err, validatePage (some requested) 3 7 = .ok (1, some err)) ↔
          requested < 1 ∨ requested > pageCountSpec 3 7)) :=
  ⟨by decide, by decide, by decide, validatePage_spec 3 7 (by decide) (by decide) (by decide)⟩

theorem validatePerPage_bounds (perPagePtr : Option Int) :
    1 ≤ validatePerPage perPagePtr ∧ validatePerPage perPagePtr ≤ 100 := by
  cases perPagePtr with
  | none => simp [validatePerPage, defaultPerPage]
  | some perPage =>
    simp only [validatePerPage, defaultPerPage, maxPerPage]
    split_ifs <;> omega

/-- A page accepted by `validatePage` lies in `[1, pagesOf]`. -/
theorem validatePage_ok (pagePtr : Option Int) (perPage totalCount p : Int)
    (hp : 1 ≤ perPage) (ht : 0 ≤ totalCount) (htr : InRange totalCount)
    (hv : validatePage pagePtr perPage totalCount = .ok (p, none)) :
    1 ≤ p ∧ p ≤ pagesOf perPage totalCount ∧ (pagePtr = none → p = 1) ∧
      (∀ page, pagePtr = some page → p = page) := by
  have hpos : 1 ≤ pagesOf perPage totalCount := by
    rcases (by omega : totalCount = 0 ∨ 1 ≤ totalCount) with h | h
    · subst h
      rw [pagesOf_zero perPage hp]
    · rw [pagesOf_pos perPage totalCount hp h htr]
      have hq0 : 0 ≤ (totalCount - 1) / perPage := Int.ediv_nonneg (by omega) (by omega)
      omega
  cases pagePtr with
  | none =>
    rw [validatePage_none perPage totalCount hp] at hv
    simp only [Except.ok.injEq, Prod.mk.injEq, and_true] at hv
    subst hv
    exact ⟨le_refl 1, hpos, fun _ => rfl, fun _ h => by simp at h⟩
  | some page =>
    rw [validatePage_some page perPage totalCount hp] at hv
    split_ifs at hv with hc
    · simp at hv
    · simp only [Except.ok.injEq, Prod.mk.injEq, and_true] at hv
      subst hv
      exact ⟨by omega, by omega, fun h => by simp at h, fun _ h => by simp at h; exact h⟩

/-- The skip count of an accepted page is `(p - 1) * perPage` without
overflow, and it leaves at least one result whenever there is any. -/
theorem validateSkipCount_ok (pagePtr : Option Int) (perPage totalCount p : Int)
    (hp : 1 ≤ perPage) (ht : 0 ≤ totalCount) (htr : InRange totalCount)
    (hv : validatePage pagePtr perPage totalCount = .ok (p, none)) :
    validateSkipCount p perPage = (p - 1) * perPage ∧
    0 ≤ (p - 1) * perPage ∧ (p - 1) * perPage ≤ totalCount ∧
    (1 ≤ totalCount → (p - 1) * perPage < totalCount) := by
  obtain ⟨h1, h2, -, -⟩ := validatePage_ok pagePtr perPage totalCount p hp ht htr hv
  have hnn : 0 ≤ (p - 1) * perPage := Int.mul_nonneg (by omega) (by omega)
  have hub : (p - 1) * perPage ≤ totalCount ∧
      (1 ≤ totalCount → (p - 1) * perPage < totalCount) := by
    rcases (by omega : totalCount = 0 ∨ 1 ≤ totalCount) with h | h
    · subst h
      rw [pagesOf_zero perPage hp] at h2
      have hp1 : p - 1 = 0 := by omega
      rw [hp1]
      simp
    · rw [pagesOf_pos perPage totalCount hp h htr] at h2
      have h3 : p - 1 ≤ (totalCount - 1) / perPage := by omega
      have h4 : (p - 1) * perPage ≤ totalCount - 1 :=
        (Int.le_ediv_iff_mul_le (by omega)).mp h3
      constructor
      · omega
      · intro _; omega
  have hsub : goSub p 1 = p - 1 := by
    unfold goSub
    apply wrapInt_of_inRange
    have hle : p - 1 ≤ (p - 1) * perPage := by
      have := Int.mul_le_mul_of_nonneg_left hp (by omega : (0 : Int) ≤ p - 1)
      simpa using this
    unfold InRange at *
    omega
  have hmul : goMul (p - 1) perPage = (p - 1) * perPage := by
    unfold goMul
    apply wrapInt_of_inRange
    unfold InRange at *
    omega
  refine ⟨?_, hnn, hub.1, hub.2⟩
  unfold validateSkipCount
  simp only [hsub, hmul]
  rw [if_neg (by omega)]

/-- C9: for a list of `total` results and a page accepted by `validatePage`,
the page size `min(perPage, total - skip)` is never negative, is at most
`perPage`, and `skip + pageSize ≤ total`, so every index `i` with
`skip ≤ i < skip + pageSize` that `TxSearch` reads is in bounds; the page size
is at least 1 whenever there is at least one result. -/
theorem pageSize_in_bounds (results : List TxResult) (pagePtr perPagePtr : Option Int)
    (p : Int) (hlen : InRange (results.length : Int))
    (hv : validatePage pagePtr (validatePerPage perPagePtr) (results.length : Int) =
      .ok (p, none)) :
    0 ≤ MinInt (validatePerPage perPagePtr)
      (goSub (results.length : Int) (validateSkipCount p (validatePerPage perPagePtr))) ∧
    MinInt (validatePerPage perPagePtr)
      (goSub (results.length : Int) (validateSkipCount p (validatePerPage perPagePtr))) ≤
        validatePerPage perPagePtr ∧
    0 ≤ validateSkipCount p (validatePerPage perPagePtr) ∧
    validateSkipCount p (validatePerPage perPagePtr) +
      MinInt (validatePerPage perPagePtr)
        (goSub (results.length : Int) (validateSkipCount p (validatePerPage perPagePtr))) ≤
        (results.length : Int) ∧
    (∀ i : Int, validateSkipCount p (validatePerPage perPagePtr) ≤ i →
      i < goAdd (validateSkipCount p (validatePerPage perPagePtr))
        (MinInt (validatePerPage perPagePtr)
          (goSub (results.length : Int)
            (validateSkipCount p (validatePerPage perPagePtr)))) →
      0 ≤ i ∧ i < (results.length : Int) ∧ (sliceIndex results i).isSome = true) ∧
    (1 ≤ (results.length : Int) →
      1 ≤ MinInt (validatePerPage perPagePtr)
        (goSub (results.length : Int)
          (validateSkipCount p (validatePerPage perPagePtr)))) := by
  obtain ⟨hp1, hp2⟩ := validatePerPage_bounds perPagePtr
  have ht : (0 : Int) ≤ (results.length : Int) := Int.ofNat_nonneg _
  obtain ⟨hs, hs0, hs1, hs2⟩ := validateSkipCount_ok pagePtr (validatePerPage perPagePtr)
    (results.length : Int) p hp1 ht hlen hv
  generalize validatePerPage perPagePtr = pp at *
  generalize validateSkipCount p pp = skip at *
  subst hs
  have hsub : goSub (results.length : Int) ((p - 1) * pp) =
      (results.length : Int) - (p - 1) * pp := by
    unfold goSub
    apply wrapInt_of_inRange
    unfold InRange at *
    omega
  rw [hsub]
  generalize (p - 1) * pp = skip at *
  have hadd : goAdd skip (MinInt pp ((results.length : Int) - skip)) =
      skip + MinInt pp ((results.length : Int) - skip) := by
    unfold goAdd
    apply wrapInt_of_inRange
    unfold MinInt InRange at *
    split_ifs <;> omega
  rw [hadd]
  unfold MinInt
  refine ⟨?_, ?_, hs0, ?_, ?_, ?_⟩
  · split_ifs <;> omega
  · split_ifs <;> omega
  · split_ifs <;> omega
  · intro i hi1 hi2
    have hi3 : i < (results.length : Int) := by
      split_ifs at hi2 <;> omega
    refine ⟨by omega, hi3, ?_⟩
    unfold sliceIndex
    rw [if_neg (by omega)]
    have hlt : i.toNat < results.length := by omega
    simp [List.getElem?_eq_getElem hlt]
  · intro h1
    have := hs2 h1
    split_ifs <;> omega

/-- Witness for C9: the seven scenario hits, page 2 at three per page. -/
theorem pageSize_in_bounds_witness :
    InRange (scenarioHits.length : Int) ∧
    validatePage (some 2) (validatePerPage (some 3)) (scenarioHits.length : Int) =
      .ok (2, none) ∧
    validateSkipCount 2 (validatePerPage (some 3)) +
      MinInt (validatePerPage (some 3))
        (goSub (scenarioHits.length : Int) (validateSkipCount 2 (validatePerPage (some 3)))) ≤
        (scenarioHits.length : Int) :=
  ⟨by decide, by decide,
   (pageSize_in_bounds scenarioHits (some 2) (some 3) 2 (by decide) (by decide)).2.2.2.1⟩

/-! ### Search ordering -/

/-- C6: once the query has parsed and the indexer has returned its hits, an
`orderBy` other than `""`, `"asc"` and `"desc"` makes `TxSearch` fail with the
invalid-order_by error and return no result, whatever the hits (none
included) and whatever the page and per-page arguments: pagination is never
reached. -/
theorem TxSearch_invalid_orderBy (lib : Lib) (cp : Node) (query : String) (q : Query)
    (hits : List TxResult) (pagePtr perPagePtr : Option Int) (orderBy : String)
    (hq : lib.queryNew query = .ok q) (hs : cp.txIndexer.search q = .ok hits)
    (h1 : orderBy ≠ "") (h2 : orderBy ≠ "asc") (h3 : orderBy ≠ "desc") :
    cp.TxSearch lib query pagePtr perPagePtr orderBy =
      (.fail .invalidOrderBy, [Call.queryNew query, Call.indexerSearch q]) := by
  have hsort : sortResults lib orderBy hits = .error .invalidOrderBy := by
    unfold sortResults
    rw [if_neg h3, if_neg (by simp [h1, h2])]
  simp only [Node.TxSearch, hq, hs, hsort]

/-- Witness for C6: `orderBy = "bogus"` over an empty hit list with an invalid
page and per-page. -/
theorem TxSearch_invalid_orderBy_witness :
    demoLib.queryNew "tx.height=1" = .ok { source := "tx.height=1" } ∧
    (demoNode 1 100 (fixedIndexer [])).txIndexer.search { source := "tx.height=1" } = .ok [] ∧
    "bogus" ≠ "" ∧ "bogus" ≠ "asc" ∧ "bogus" ≠ "desc" ∧
    (demoNode 1 100 (fixedIndexer [])).TxSearch demoLib "tx.height=1" (some 0) (some (-1))
        "bogus" =
      (.fail .invalidOrderBy,
        [Call.queryNew "tx.height=1", Call.indexerSearch { source := "tx.height=1" }]) :=
  ⟨rfl, rfl, by decide, by decide, by decide,
   TxSearch_invalid_orderBy demoLib (demoNode 1 100 (fixedIndexer [])) "tx.height=1"
     { source := "tx.height=1" } [] (some 0) (some (-1)) "bogus" rfl rfl
     (by decide) (by decide) (by decide)⟩

theorem lessAsc_strictWeakOrder : StrictWeakOrder lessAsc where
  irrefl := by
    intro a
    simp [lessAsc]
  trans := by
    intro a b c hab hbc
    simp only [lessAsc] at *
    split_ifs at * <;> simp only [decide_eq_true_eq] at * <;> omega
  incomp_trans := by
    intro a b c hab hbc
    simp only [lessAsc] at *
    split_ifs at * <;> simp only [decide_eq_false_iff_not, not_lt] at * <;> omega

theorem lessDesc_strictWeakOrder : StrictWeakOrder lessDesc where
  irrefl := by
    intro a
    simp [lessDesc]
  trans := by
    intro a b c hab hbc
    simp only [lessDesc] at *
    split_ifs at * <;> simp only [decide_eq_true_eq] at * <;> omega
  incomp_trans := by
    intro a b c hab hbc
    simp only [lessDesc] at *
    split_ifs at * <;> simp only [decide_eq_false_iff_not, not_lt] at * <;> omega

theorem lessAsc_false_iff (a b : TxResult) : lessAsc b a = false ↔ KeyLe a b := by
  simp only [lessAsc, KeyLe]
  split_ifs with h <;> simp only [decide_eq_false_iff_not, not_lt] <;> omega

theorem lessDesc_false_iff (a b : TxResult) : lessDesc b a = false ↔ KeyGe a b := by
  simp only [lessDesc, KeyGe]
  split_ifs with h <;> simp only [decide_eq_false_iff_not, not_lt] <;> omega

/-- Insertion sort meets the contract of `sort.Slice`. -/
theorem insertionSortSlice_sorts (less : TxResult → TxResult → Bool) (l : List TxResult) :
    (insertionSortSlice less l).Perm l ∧
    (StrictWeakOrder less →
      (insertionSortSlice less l).Pairwise (fun a b => less b a = false)) := by
  refine ⟨List.perm_insertionSort _ l, ?_⟩
  intro hswo
  haveI : IsTotal TxResult (fun a b => less b a = false) := ⟨by
    intro a b
    by_cases hba : less b a = true
    · right
      by_contra hab
      have hab1 : less a b = true := by simpa using hab
      have := hswo.trans a b a hab1 hba
      rw [hswo.irrefl a] at this
      exact Bool.false_ne_true this
    · left
      simpa using hba⟩
  haveI : IsTrans TxResult (fun a b => less b a = false) :=
    ⟨fun a b c hab hbc => hswo.incomp_trans c b a hbc hab⟩
  exact List.sorted_insertionSort (fun a b => less b a = false) l

theorem demoLib_sortsSlices : demoLib.SortsSlices :=
  fun less l => insertionSortSlice_sorts less l

/-- C5: the sorting step of `TxSearch` yields a permutation of the hits
ordered by the key `(height, index)`: for `orderBy` `""` or `"asc"` every
adjacent pair `(a, b)` has `a.height < b.height`, or equal heights and
`a.index ≤ b.index`; for `"desc"` every adjacent pair has
`a.height > b.height`, or equal heights and `a.index ≥ b.index`. -/
theorem sortResults_sorted (lib : Lib) (hsort : lib.SortsSlices) (hits : List TxResult) :
    (∀ orderBy : String, orderBy = "" ∨ orderBy = "asc" →
      ∃ sorted, sortResults lib orderBy hits = .ok sorted ∧ sorted.Perm hits ∧
        sorted.Chain' KeyLe) ∧
    (∃ sorted, sortResults lib "desc" hits = .ok sorted ∧ sorted.Perm hits ∧
        sorted.Chain' KeyGe) := by
  constructor
  · intro orderBy ho
    refine ⟨lib.sortSlice lessAsc hits, ?_, (hsort lessAsc hits).1, ?_⟩
    · unfold sortResults
      have hne : orderBy ≠ "desc" := by
        rcases ho with h | h <;> subst h <;> decide
      rw [if_neg hne, if_pos (by tauto)]
    · have hp := (hsort lessAsc hits).2 lessAsc_strictWeakOrder
      exact List.Pairwise.chain' (hp.imp (fun {a b} h => (lessAsc_false_iff a b).mp h))
  · refine ⟨lib.sortSlice lessDesc hits, ?_, (hsort lessDesc hits).1, ?_⟩
    · unfold sortResults
      rw [if_pos rfl]
    · have hp := (hsort lessDesc hits).2 lessDesc_strictWeakOrder
      exact List.Pairwise.chain' (hp.imp (fun {a b} h => (lessDesc_false_iff a b).mp h))

/-- Witness for C5: the scenario hits sorted by insertion sort. -/
theorem sortResults_sorted_witness :
    demoLib.SortsSlices ∧
    (∃ sorted, sortResults demoLib "desc" scenarioHits = .ok sorted ∧
      sorted.Perm scenarioHits ∧ sorted.Chain' KeyGe) ∧
    sortResults demoLib "asc" scenarioHits =
      .ok [hit 1 0, hit 1 1, hit 2 0, hit 3 0, hit 3 1, hit 3 2, hit 5 0] ∧
    sortResults demoLib "desc" scenarioHits =
      .ok [hit 5 0, hit 3 2, hit 3 1, hit 3 0, hit 2 0, hit 1 1, hit 1 0] :=
  ⟨demoLib_sortsSlices, (sortResults_sorted demoLib demoLib_sortsSlices scenarioHits).2,
   by decide, by decide⟩

/-! ### Paginated search -/

/-- The loop of `TxSearch` run from `i` for the `n` indices up to `stop`
appends the converted hits at positions `i, …, stop - 1`. -/
theorem txSearchLoop_eq (lib : Lib) (results : List TxResult) (stop : Int)
    (hstop : stop ≤ (results.length : Int)) (hlen : InRange (results.length : Int)) :
    ∀ (n : Nat) (i : Int) (apiResults : List ResultTx), 0 ≤ i → i + (n : Int) = stop →
      txSearchLoop lib results stop n i apiResults =
        .ok (apiResults ++ ((results.drop i.toNat).take n).map (toResultTx lib)) := by
  intro n
  induction n with
  | zero =>
    intro i apiResults _ _
    simp [txSearchLoop]
  | succ n ih =>
    intro i apiResults hi hn
    have hlt : i.toNat < results.length := by omega
    have hidx : sliceIndex results i = some results[i.toNat] := by
      unfold sliceIndex
      rw [if_neg (by omega), List.getElem?_eq_getElem hlt]
    have hadd : goAdd i 1 = i + 1 := by
      unfold goAdd
      apply wrapInt_of_inRange
      unfold InRange at *
      omega
    have hnat : (i + 1).toNat = i.toNat + 1 := by omega
    simp only [txSearchLoop]
    rw [if_pos (by omega), hidx]
    simp only [hadd]
    rw [ih (i + 1) _ (by omega) (by omega), hnat, List.drop_eq_getElem_cons hlt]
    simp only [List.take_succ_cons, List.map_cons, List.append_assoc, List.singleton_append]

/-- The pagination part of `TxSearch` on an accepted page returns the slice
`[skip, min(skip + perPage, total))` of its input and the total count. -/
theorem paginateResults_eq (lib : Lib) (results : List TxResult)
    (pagePtr perPagePtr : Option Int) (p : Int) (hlen : InRange (results.length : Int))
    (hv : validatePage pagePtr (validatePerPage perPagePtr) (results.length : Int) =
      .ok (p, none)) :
    paginateResults lib results pagePtr perPagePtr =
      .ok { txs := ((results.drop ((p - 1) * validatePerPage perPagePtr).toNat).take
                (min ((p - 1) * validatePerPage perPagePtr + validatePerPage perPagePtr)
                  (results.length : Int) - (p - 1) * validatePerPage perPagePtr).toNat).map
                (toResultTx lib)
            totalCount := (results.length : Int) } := by
  obtain ⟨hp1, hp2⟩ := validatePerPage_bounds perPagePtr
  have ht : (0 : Int) ≤ (results.length : Int) := Int.ofNat_nonneg _
  obtain ⟨hs, hs0, hs1, hs2⟩ := validateSkipCount_ok pagePtr (validatePerPage perPagePtr)
    (results.length : Int) p hp1 ht hlen hv
  unfold paginateResults
  simp only [hv, hs]
  generalize validatePerPage perPagePtr = pp at *
  generalize (p - 1) * pp = skip at *
  have hsub : goSub (results.length : Int) skip = (results.length : Int) - skip := by
    unfold goSub
    apply wrapInt_of_inRange
    unfold InRange at *
    omega
  have hmin : MinInt pp ((results.length : Int) - skip) =
      min (skip + pp) (results.length : Int) - skip := by
    unfold MinInt
    split_ifs <;> omega
  have hadd : goAdd skip (min (skip + pp) (results.length : Int) - skip) =
      min (skip + pp) (results.length : Int) := by
    unfold goAdd
    rw [show skip + (min (skip + pp) (results.length : Int) - skip) =
      min (skip + pp) (results.length : Int) by omega]
    apply wrapInt_of_inRange
    unfold InRange at *
    omega
  rw [hsub, hmin, hadd, if_neg (by omega)]
  rw [txSearchLoop_eq lib results (min (skip + pp) (results.length : Int)) (by omega) hlen
    _ skip [] hs0 (by omega)]
  simp

/-- More iterations than `(stop - i).toNat` change nothing: the loop has left
through its condition `i < stop` before the bound is used up. -/
theorem txSearchLoop_fuel (lib : Lib) (results : List TxResult) (stop : Int)
    (hstop : InRange stop) :
    ∀ (n : Nat) (i : Int) (apiResults : List ResultTx), InRange i →
      (stop - i).toNat ≤ n →
      txSearchLoop lib results stop n i apiResults =
        txSearchLoop lib results stop (stop - i).toNat i apiResults := by
  intro n
  induction n with
  | zero =>
    intro i apiResults _ hn
    have h0 : (stop - i).toNat = 0 := by omega
    rw [h0]
  | succ n ih =>
    intro i apiResults hi hn
    by_cases hlt : i < stop
    · have hadd : goAdd i 1 = i + 1 := by
        unfold goAdd
        apply wrapInt_of_inRange
        unfold InRange at *
        omega
      have hk : (stop - i).toNat = (stop - (i + 1)).toNat + 1 := by omega
      have hir : InRange (i + 1) := by
        unfold InRange at *
        omega
      rw [hk]
      simp only [txSearchLoop]
      rw [if_pos hlt, if_pos hlt, hadd]
      cases sliceIndex results i with
      | none => rfl
      | some r => exact ih (i + 1) _ hir (by omega)
    · have h0 : (stop - i).toNat = 0 := by omega
      rw [h0]
      simp only [txSearchLoop]
      rw [if_neg hlt]

/-- C1: when the query parses, the indexer returns `hits`, `orderBy` is `""`,
`"asc"` or `"desc"` and `validatePage` accepts the page as `p`, `TxSearch`
sorts all hits (a permutation of them ordered by `(height, index)` in the
requested direction) and returns, in order, exactly the hits at positions
`[skip, min(skip + pp, total))` of that sorted list, with
`pp = validatePerPage(perPage)`, `skip = (p - 1) * pp` and `total` the number
of all hits: the item returned for a hit carries that hit's height, index,
execution result and raw transaction, the hash of that transaction and an
empty proof; the returned `TotalCount` is `total`. -/
theorem TxSearch_page (lib : Lib) (hsort : lib.SortsSlices) (cp : Node) (query : String)
    (q : Query) (hits : List TxResult) (pagePtr perPagePtr : Option Int)
    (orderBy : String) (p : Int)
    (hq : lib.queryNew query = .ok q) (hs : cp.txIndexer.search q = .ok hits)
    (hlen : InRange (hits.length : Int))
    (ho : orderBy = "" ∨ orderBy = "asc" ∨ orderBy = "desc")
    (hv : validatePage pagePtr (validatePerPage perPagePtr) (hits.length : Int) =
      .ok (p, none)) :
    ∃ sorted : List TxResult,
      sortResults lib orderBy hits = .ok sorted ∧
      sorted.Perm hits ∧
      (orderBy = "desc" → sorted.Pairwise KeyGe) ∧
      (orderBy ≠ "desc" → sorted.Pairwise KeyLe) ∧
      cp.TxSearch lib query pagePtr perPagePtr orderBy =
        (.ok { txs := ((sorted.drop ((p - 1) * validatePerPage perPagePtr).toNat).take
                  (min ((p - 1) * validatePerPage perPagePtr + validatePerPage perPagePtr)
                    (hits.length : Int) - (p - 1) * validatePerPage perPagePtr).toNat).map
                  (fun r : TxResult =>
                    ({ hash := lib.txHash r.tx
                       height := r.height
                       index := r.index
                       txResult := r.result
                       tx := r.tx
                       proof := { rootHash := [] } } : ResultTx))
               totalCount := (hits.length : Int) },
         [Call.queryNew query, Call.indexerSearch q]) := by
  have hconv : toResultTx lib = (fun r : TxResult =>
      ({ hash := lib.txHash r.tx
         height := r.height
         index := r.index
         txResult := r.result
         tx := r.tx
         proof := { rootHash := [] } } : ResultTx)) := by
    funext r
    rfl
  have key : ∀ sorted : List TxResult, sorted.Perm hits →
      sortResults lib orderBy hits = .ok sorted →
      cp.TxSearch lib query pagePtr perPagePtr orderBy =
        (.ok { txs := ((sorted.drop ((p - 1) * validatePerPage perPagePtr).toNat).take
                  (min ((p - 1) * validatePerPage perPagePtr + validatePerPage perPagePtr)
                    (hits.length : Int) - (p - 1) * validatePerPage perPagePtr).toNat).map
                  (fun r : TxResult =>
                    ({ hash := lib.txHash r.tx
                       height := r.height
                       index := r.index
                       txResult := r.result
                       tx := r.tx
                       proof := { rootHash := [] } } : ResultTx))
               totalCount := (hits.length : Int) },
         [Call.queryNew query, Call.indexerSearch q]) := by
    intro sorted hperm hsorted
    have hl : sorted.length = hits.length := hperm.length_eq
    simp only [Node.TxSearch, hq, hs, hsorted]
    rw [paginateResults_eq lib sorted pagePtr perPagePtr p (by rw [hl]; exact hlen)
      (by rw [hl]; exact hv), hl, hconv]
  by_cases hd : orderBy = "desc"
  · have hres : sortResults lib orderBy hits = .ok (lib.sortSlice lessDesc hits) := by
      unfold sortResults
      rw [if_pos hd]
    refine ⟨lib.sortSlice lessDesc hits, hres, (hsort lessDesc hits).1, ?_, ?_,
      key _ (hsort lessDesc hits).1 hres⟩
    · intro _
      exact ((hsort lessDesc hits).2 lessDesc_strictWeakOrder).imp
        (fun {a b} h => (lessDesc_false_iff a b).mp h)
    · intro h
      exact absurd hd h
  · have hres : sortResults lib orderBy hits = .ok (lib.sortSlice lessAsc hits) := by
      unfold sortResults
      rw [if_neg hd, if_pos (by tauto)]
    refine ⟨lib.sortSlice lessAsc hits, hres, (hsort lessAsc hits).1, ?_, ?_,
      key _ (hsort lessAsc hits).1 hres⟩
    · intro h
      exact absurd h hd
    · intro _
      exact ((hsort lessAsc hits).2 lessAsc_strictWeakOrder).imp
        (fun {a b} h => (lessAsc_false_iff a b).mp h)

/-- Witness for C1: the seven scenario hits; ascending with three per page,
page two, returns the items at `(3,0),(3,1),(3,2)` and total count 7, and
descending with two per page, page one, returns the items at `(5,0),(3,2)`. -/
theorem TxSearch_page_witness :
    demoLib.SortsSlices ∧
    demoLib.queryNew "tx.height>0" = .ok { source := "tx.height>0" } ∧
    (demoNode 1 100 (fixedIndexer scenarioHits)).txIndexer.search { source := "tx.height>0" } =
      .ok scenarioHits ∧
    InRange (scenarioHits.length : Int) ∧
    validatePage (some 2) (validatePerPage (some 3)) (scenarioHits.length : Int) =
      .ok (2, none) ∧
    (∃ sorted : List TxResult,
      sortResults demoLib "asc" scenarioHits = .ok sorted ∧
      sorted.Perm scenarioHits ∧
      ("asc" = "desc" → sorted.Pairwise KeyGe) ∧
      ("asc" ≠ "desc" → sorted.Pairwise KeyLe) ∧
      (demoNode 1 100 (fixedIndexer scenarioHits)).TxSearch demoLib "tx.height>0"
          (some 2) (some 3) "asc" =
        (.ok { txs := ((sorted.drop ((2 - 1) * validatePerPage (some 3)).toNat).take
                  (min ((2 - 1) * validatePerPage (some 3) + validatePerPage (some 3))
                    (scenarioHits.length : Int) -
                      (2 - 1) * validatePerPage (some 3)).toNat).map
                  (fun r : TxResult =>
                    ({ hash := demoLib.txHash r.tx
                       height := r.height
                       index := r.index
                       txResult := r.result
                       tx := r.tx
                       proof := { rootHash := [] } } : ResultTx))
               totalCount := (scenarioHits.length : Int) },
         [Call.queryNew "tx.height>0", Call.indexerSearch { source := "tx.height>0" }])) ∧
    ((demoNode 1 100 (fixedIndexer scenarioHits)).TxSearch demoLib "tx.height>0"
        (some 2) (some 3) "asc").1 =
      .ok { txs :=
              [{ hash := [], height := 3, index := 0,
                 txResult := { code := 0, data := [] }, tx := [], proof := { rootHash := [] } },
               { hash := [], height := 3, index := 1,
                 txResult := { code := 0, data := [] }, tx := [], proof := { rootHash := [] } },
               { hash := [], height := 3, index := 2,
                 txResult := { code := 0, data := [] }, tx := [], proof := { rootHash := [] } }]
            totalCount := 7 } ∧
    ((demoNode 1 100 (fixedIndexer scenarioHits)).TxSearch demoLib "tx.height>0"
        (some 1) (some 2) "desc").1 =
      .ok { txs :=
              [{ hash := [], height := 5, index := 0,
                 txResult := { code := 0, data := [] }, tx := [], proof := { rootHash := [] } },
               { hash := [], height := 3, index := 2,
                 txResult := { code := 0, data := [] }, tx := [], proof := { rootHash := [] } }]
            totalCount := 7 } :=
  ⟨demoLib_sortsSlices, rfl, rfl, by decide, by decide,
   TxSearch_page demoLib demoLib_sortsSlices (demoNode 1 100 (fixedIndexer scenarioHits))
     "tx.height>0" { source := "tx.height>0" } scenarioHits (some 2) (some 3) "asc" 2
     rfl rfl (by decide) (by decide) (by decide),
   by decide, by decide⟩

end Juno
